import Mathlib

/-!
Verification of the agentvault on-chain registry program
(src/programs/agentvault/src/lib.rs).

The program keeps three kinds of records, each stored at a deterministic
address derived from its key: a singleton `RegistryStats`, one
`AgentProfile` per owner identity, and one `Endorsement` per
(endorser, target, skill) triple.  We embed the store as association
lists keyed by those keys; "create fails if the address is occupied" is
a lookup returning `none` as the precondition of insertion.

Machine integers are embedded as `Nat` with explicit reduction modulo
the type's width where the source performs machine arithmetic:
`reputation` is a `u8` (so `reputation + 2` is taken mod 2^8 before the
`min 100` clamp, exactly as `std::cmp::min(100, target.reputation + 2)`
computes in `u8`), `endorsements_received` is a `u32` and `total_agents`
a `u64` (so `+= 1` is mod 2^32 resp. 2^64).  Rust's `saturating_sub` on
unsigned integers is exactly truncated `Nat` subtraction.  String byte
lengths (`String::len` in Rust counts UTF-8 bytes) are embedded as
`String.utf8ByteSize`.

Identities (Solana `Pubkey`) are embedded as `Nat`; the program only
ever compares them for equality.
-/

abbrev Pubkey := Nat

/-- AgentProfile account of lib.rs (wallet, name, metadata_uri, skills,
reputation, endorsements_received, registered_at, last_active); the
`bump` byte is Anchor bookkeeping with no program-visible content and is
omitted. -/
structure AgentProfile where
  wallet : Pubkey
  name : String
  metadata_uri : String
  skills : List String
  reputation : Nat
  endorsements_received : Nat
  registered_at : Int
  last_active : Int
deriving Repr, DecidableEq

/-- Endorsement account of lib.rs. -/
structure Endorsement where
  endorser : Pubkey
  target : Pubkey
  skill : String
  timestamp : Int
deriving Repr, DecidableEq

/-- RegistryStats account of lib.rs. -/
structure RegistryStats where
  total_agents : Nat
  total_endorsements : Nat
  authority : Pubkey
deriving Repr, DecidableEq

/-- Error codes: the program's own `AgentVaultError` variants plus the
store-level failures the spec names (`AlreadyInitialized`,
`AlreadyRegistered`, `DuplicateEndorsement` when a create hits an
occupied address, `RecordNotFound` when a load hits an empty one). -/
inductive AgentVaultError where
  | NameTooLong
  | MetadataUriTooLong
  | TooManySkills
  | SkillNameTooLong
  | CannotEndorseSelf
  | SkillNotDeclared
  | Unauthorized
  | AlreadyInitialized
  | AlreadyRegistered
  | DuplicateEndorsement
  | RecordNotFound
deriving Repr, DecidableEq

/-- The persistent store: the three record kinds, each keyed by its
deterministic address components. -/
structure VaultState where
  stats : Option RegistryStats
  profiles : List (Pubkey × AgentProfile)
  endorsements : List ((Pubkey × Pubkey × String) × Endorsement)
deriving Repr, DecidableEq

/-- Lookup in an association list: the value at the first matching key. -/
def lookupA {α β : Type} [DecidableEq α] : List (α × β) → α → Option β
  | [], _ => none
  | (a, b) :: t, k => if a = k then some b else lookupA t k

/-- Update every entry at a key in place. -/
def updA {α β : Type} [DecidableEq α] : List (α × β) → α → (β → β) → List (α × β)
  | [], _, _ => []
  | (a, b) :: t, k, f => (a, if a = k then f b else b) :: updA t k f

/-- Remove every entry at a key (the store's destroy). -/
def eraseA {α β : Type} [DecidableEq α] : List (α × β) → α → List (α × β)
  | [], _ => []
  | (a, b) :: t, k => if a = k then eraseA t k else (a, b) :: eraseA t k

theorem lookupA_updA {α β : Type} [DecidableEq α] (l : List (α × β)) (k k' : α) (f : β → β) :
    lookupA (updA l k f) k' =
      if k = k' then Option.map f (lookupA l k') else lookupA l k' := by
  induction l with
  | nil => simp [lookupA, updA]
  | cons hd t ih =>
    obtain ⟨a, b⟩ := hd
    simp only [updA, lookupA]
    rcases eq_or_ne k k' with hkk | hkk
    · subst hkk
      by_cases hak : a = k <;> simp [hak, ih]
    · rcases eq_or_ne a k' with hak' | hak'
      · subst hak'
        have hak : ¬a = k := fun h => hkk h.symm
        simp [hak, hkk]
      · simp [hak', hkk, ih]

theorem lookupA_eraseA {α β : Type} [DecidableEq α] (l : List (α × β)) (k k' : α) :
    lookupA (eraseA l k) k' =
      if k = k' then none else lookupA l k' := by
  induction l with
  | nil => simp [lookupA, eraseA]
  | cons hd t ih =>
    obtain ⟨a, b⟩ := hd
    simp only [eraseA, lookupA]
    rcases eq_or_ne a k with hak | hak
    · subst hak
      rcases eq_or_ne a k' with hk' | hk'
      · subst hk'
        simp [ih]
      · simp [hk', ih]
    · simp only [if_neg hak, lookupA]
      rcases eq_or_ne a k' with hak' | hak'
      · subst hak'
        have hka : ¬k = a := fun h => hak h.symm
        simp [hka]
      · simp [hak', ih]

/-- Registry setup, from `initialize_registry` of lib.rs: creates the
`RegistryStats` singleton (Anchor `init` fails if it already exists)
with both counters 0 and the caller as authority. -/
def initialize_registry (s : VaultState) (authority : Pubkey) :
    Except AgentVaultError VaultState :=
  match s.stats with
  | some _ => .error .AlreadyInitialized
  | none => .ok { s with
      stats := some { total_agents := 0, total_endorsements := 0, authority := authority } }

/-- Profile created by `register_agent` of lib.rs. -/
def freshProfile (owner : Pubkey) (name metadata_uri : String)
    (skills : List String) (now : Int) : AgentProfile :=
  { wallet := owner
    name := name
    metadata_uri := metadata_uri
    skills := skills
    reputation := 50
    endorsements_received := 0
    registered_at := now
    last_active := now }

/-- Agent registration, from `register_agent` of lib.rs.  The Anchor
`init` of the profile account at address(agent, owner) fails first when
the owner is already registered; the `registry_stats` account must
exist; then the body validates the three length bounds and creates the
profile (reputation 50, counter 0) and bumps `total_agents` (a `u64`
`+= 1`, hence mod 2^64). -/
def register_agent (s : VaultState) (owner : Pubkey) (name metadata_uri : String)
    (skills : List String) (now : Int) : Except AgentVaultError VaultState :=
  match lookupA s.profiles owner with
  | some _ => .error .AlreadyRegistered
  | none =>
    match s.stats with
    | none => .error .RecordNotFound
    | some st =>
      if 32 < name.utf8ByteSize then .error .NameTooLong
      else if 200 < metadata_uri.utf8ByteSize then .error .MetadataUriTooLong
      else if 10 < skills.length then .error .TooManySkills
      else .ok { s with
        profiles := (owner, freshProfile owner name metadata_uri skills now) :: s.profiles
        stats := some { st with total_agents := (st.total_agents + 1) % 2 ^ 64 } }

/-- Profile update, from `update_profile` of lib.rs: the profile must
exist at address(agent, owner) and be owned by the caller
(`Unauthorized` otherwise); a present `metadata_uri` is validated
(≤ 200) and replaces the old one, a present `skills` is validated
(≤ 10) and replaces the old list wholesale, an absent field is left
untouched; `last_active` is always refreshed.  The source checks the
URI before the skills list, and that order is kept. -/
def update_profile (s : VaultState) (owner : Pubkey) (metadata_uri : Option String)
    (skills : Option (List String)) (now : Int) : Except AgentVaultError VaultState :=
  match lookupA s.profiles owner with
  | none => .error .RecordNotFound
  | some agent =>
    if agent.wallet ≠ owner then .error .Unauthorized
    else
      match metadata_uri, skills with
      | some uri, some ns =>
        if 200 < uri.utf8ByteSize then .error .MetadataUriTooLong
        else if 10 < ns.length then .error .TooManySkills
        else .ok { s with profiles := updA s.profiles owner (fun a =>
          { a with metadata_uri := uri, skills := ns, last_active := now }) }
      | some uri, none =>
        if 200 < uri.utf8ByteSize then .error .MetadataUriTooLong
        else .ok { s with profiles := updA s.profiles owner (fun a =>
          { a with metadata_uri := uri, last_active := now }) }
      | none, some ns =>
        if 10 < ns.length then .error .TooManySkills
        else .ok { s with profiles := updA s.profiles owner (fun a =>
          { a with skills := ns, last_active := now }) }
      | none, none =>
        .ok { s with profiles := updA s.profiles owner (fun a =>
          { a with last_active := now }) }

/-- Skill endorsement, from `endorse_skill` of lib.rs, with the checks
in the spec's order (§4.4): skill length ≤ 32, no self-endorsement,
target profile loaded and the skill literally contained in its declared
list, then the Endorsement record created at
address(endorsement, endorser, target, skill) — creation at an occupied
address is the duplicate check — and finally the endorser's own profile
loaded (it must exist) to refresh its `last_active`.  The target gains
`endorsements_received += 1` (`u32`, mod 2^32) and
`reputation = min(100, reputation + 2)` computed in `u8` (mod 2^8). -/
def endorse_skill (s : VaultState) (endorser target_wallet : Pubkey)
    (skill : String) (now : Int) : Except AgentVaultError VaultState :=
  if 32 < skill.utf8ByteSize then .error .SkillNameTooLong
  else if endorser = target_wallet then .error .CannotEndorseSelf
  else
    match lookupA s.profiles target_wallet with
    | none => .error .RecordNotFound
    | some target =>
      if skill ∉ target.skills then .error .SkillNotDeclared
      else
        match lookupA s.endorsements (endorser, target_wallet, skill) with
        | some _ => .error .DuplicateEndorsement
        | none =>
          match lookupA s.profiles endorser with
          | none => .error .RecordNotFound
          | some _ =>
            .ok { s with
              endorsements := ((endorser, target_wallet, skill),
                { endorser := endorser, target := target_wallet,
                  skill := skill, timestamp := now }) :: s.endorsements
              profiles := updA (updA s.profiles target_wallet (fun t =>
                { t with
                  endorsements_received := (t.endorsements_received + 1) % 2 ^ 32
                  reputation := min 100 ((t.reputation + 2) % 2 ^ 8)
                  last_active := now })) endorser (fun e =>
                { e with last_active := now }) }

/-- Endorsement revocation, from `revoke_endorsement` of lib.rs: the
Endorsement record must exist at the caller's address and carry the
caller as its endorser (`has_one = endorser`); the target profile is
loaded; then `endorsements_received` is decremented and `reputation`
decreased by 2, both with `saturating_sub` (truncated `Nat`
subtraction), and the record is destroyed.  `last_active` is
deliberately not touched. -/
def revoke_endorsement (s : VaultState) (endorser target_wallet : Pubkey)
    (skill : String) : Except AgentVaultError VaultState :=
  match lookupA s.endorsements (endorser, target_wallet, skill) with
  | none => .error .RecordNotFound
  | some record =>
    if record.endorser ≠ endorser then .error .Unauthorized
    else
      match lookupA s.profiles target_wallet with
      | none => .error .RecordNotFound
      | some _ =>
        .ok { s with
          endorsements := eraseA s.endorsements (endorser, target_wallet, skill)
          profiles := updA s.profiles target_wallet (fun t =>
            { t with
              endorsements_received := t.endorsements_received - 1
              reputation := t.reputation - 2 }) }

/-- One operation of the program's external interface. -/
inductive Op where
  | initRegistry (authority : Pubkey)
  | register (owner : Pubkey) (name metadata_uri : String) (skills : List String) (now : Int)
  | update (owner : Pubkey) (metadata_uri : Option String) (skills : Option (List String)) (now : Int)
  | endorse (endorser target : Pubkey) (skill : String) (now : Int)
  | revoke (endorser target : Pubkey) (skill : String)
deriving Repr, DecidableEq

/-- Dispatch of one operation. -/
def step (s : VaultState) : Op → Except AgentVaultError VaultState
  | .initRegistry a => initialize_registry s a
  | .register o n m sk now => register_agent s o n m sk now
  | .update o m sk now => update_profile s o m sk now
  | .endorse e t sk now => endorse_skill s e t sk now
  | .revoke e t sk => revoke_endorsement s e t sk

/-- The ledger commits the new state on success and rolls the whole
operation back on any error (atomicity of one instruction). -/
def applyOp (s : VaultState) (op : Op) : VaultState :=
  match step s op with
  | .ok s' => s'
  | .error _ => s

/-- Empty ledger: no registry, no profiles, no endorsements. -/
def State0 : VaultState := { stats := none, profiles := [], endorsements := [] }

/-- States reachable from the empty ledger by any sequence of
operations (failed operations leave the state unchanged). -/
inductive Reachable : VaultState → Prop where
  | init : Reachable State0
  | step (op : Op) {s : VaultState} : Reachable s → Reachable (applyOp s op)

/-- Number of operations of a list that succeed when executed in
sequence from a state. -/
def countOk : VaultState → List Op → Nat
  | _, [] => 0
  | s, op :: rest =>
    (match step s op with | .ok _ => 1 | .error _ => 0) + countOk (applyOp s op) rest

/-- Reputation of the profile of a key after an operation result, for
stating concrete counterexamples. -/
def repOf (r : Except AgentVaultError VaultState) (k : Pubkey) : Option Nat :=
  match r with
  | .ok s => Option.map (fun p => p.reputation) (lookupA s.profiles k)
  | .error _ => none

/-- Profile transformation a successful endorsement applies to the target. -/
def endorseTarget (now : Int) (p : AgentProfile) : AgentProfile :=
  { p with
    endorsements_received := (p.endorsements_received + 1) % 2 ^ 32
    reputation := min 100 ((p.reputation + 2) % 2 ^ 8)
    last_active := now }

/-- Profile transformation a successful revocation applies to the target. -/
def revokeTarget (p : AgentProfile) : AgentProfile :=
  { p with
    endorsements_received := p.endorsements_received - 1
    reputation := p.reputation - 2 }

/-- Every stored profile has reputation in [0, 100] (the lower bound is
inherent to the Nat embedding of the unsigned `u8`). -/
def repOK (s : VaultState) : Prop :=
  ∀ k p, lookupA s.profiles k = some p → p.reputation ≤ 100

/-- RegistryStats, when it exists, has `total_endorsements = 0`. -/
def statsEndZero (s : VaultState) : Prop :=
  ∀ st, s.stats = some st → st.total_endorsements = 0


/-- State a successful `endorse_skill` commits (new record, boosted
target, refreshed endorser). -/
def endorseState (s : VaultState) (e t : Pubkey) (sk : String) (now : Int) : VaultState :=
  { s with
    endorsements := ((e, t, sk),
      { endorser := e, target := t, skill := sk, timestamp := now }) :: s.endorsements
    profiles := updA (updA s.profiles t (endorseTarget now)) e (fun p =>
      { p with last_active := now }) }

/-- State a successful `revoke_endorsement` commits (record destroyed,
target decremented). -/
def revokeState (s : VaultState) (e t : Pubkey) (sk : String) : VaultState :=
  { s with
    endorsements := eraseA s.endorsements (e, t, sk)
    profiles := updA s.profiles t revokeTarget }

/-- C1 conclusion.  Reputation stays in [0, 100] across every
operation: the global bound on every stored profile, registration
creating a profile at exactly 50 with zero endorsements, endorsing a
target already at 100 leaving it at 100, and revocation flooring both
reputation (from 0 or 1) and `endorsements_received` (from 0) at 0. -/
def repBounds (s : VaultState) : Prop :=
  (∀ k p, lookupA s.profiles k = some p → p.reputation ≤ 100) ∧
  (∀ o n m sk now s', register_agent s o n m sk now = .ok s' →
    ∀ p, lookupA s'.profiles o = some p →
      p.reputation = 50 ∧ p.endorsements_received = 0) ∧
  (∀ e t sk now s', endorse_skill s e t sk now = .ok s' →
    ∀ pt, lookupA s.profiles t = some pt → pt.reputation = 100 →
      ∀ pt', lookupA s'.profiles t = some pt' → pt'.reputation = 100) ∧
  (∀ e t sk s', revoke_endorsement s e t sk = .ok s' →
    ∀ pt, lookupA s.profiles t = some pt →
      ∀ pt', lookupA s'.profiles t = some pt' →
        (pt.reputation ≤ 1 → pt'.reputation = 0) ∧
        (pt.endorsements_received = 0 → pt'.endorsements_received = 0))

/-- C2 conclusion.  An operation that returns an error commits nothing
(the ledger rolls the instruction back), and in particular an
`update_profile` carrying a valid metadata URI together with an
over-long skills list fails with TooManySkills and changes no field. -/
def atomicOnError (s : VaultState) : Prop :=
  (∀ op e, step s op = .error e → applyOp s op = s) ∧
  (∀ o agent uri ns now, lookupA s.profiles o = some agent → agent.wallet = o →
    uri.utf8ByteSize ≤ 200 → 10 < ns.length →
    update_profile s o (some uri) (some ns) now = .error .TooManySkills ∧
    applyOp s (.update o (some uri) (some ns) now) = s)

/-- C3 conclusion.  On one (endorser, target, skill) triple: a second
endorsement attempt right after a successful one fails with
DuplicateEndorsement; along any sequence of endorsements of the triple
(no revoke in between) at most one succeeds; and after a successful
revoke a fresh endorsement of the same triple succeeds again. -/
def endorseOncePerTriple (s : VaultState) (e t : Pubkey) (sk : String) : Prop :=
  (∀ now now' s1, endorse_skill s e t sk now = .ok s1 →
    endorse_skill s1 e t sk now' = .error .DuplicateEndorsement) ∧
  (∀ ts : List Int, countOk s (ts.map (Op.endorse e t sk)) ≤ 1) ∧
  (∀ s' now pt pe, revoke_endorsement s e t sk = .ok s' →
    lookupA s.profiles t = some pt → sk ∈ pt.skills → sk.utf8ByteSize ≤ 32 →
    e ≠ t → lookupA s.profiles e = some pe →
    ∃ s'', endorse_skill s' e t sk now = .ok s'')

/-- C4 (amended) conclusion.  The decrements of `revoke_endorsement`
are saturating for every input state (truncated Nat subtraction); the
increments are plain machine arithmetic which agrees with exact
arithmetic below the bounds: when the target's reputation is ≤ 100 the
endorsement boost is exactly min 100 (reputation + 2), and the counter
increments are exactly +1 while below the u32 / u64 maximum. -/
def arithmeticProfile (s : VaultState) : Prop :=
  (∀ e t sk s' pt, revoke_endorsement s e t sk = .ok s' →
    lookupA s.profiles t = some pt →
    ∃ pt', lookupA s'.profiles t = some pt' ∧
      pt'.reputation = pt.reputation - 2 ∧
      pt'.endorsements_received = pt.endorsements_received - 1) ∧
  (∀ e t sk now s' pt, endorse_skill s e t sk now = .ok s' →
    lookupA s.profiles t = some pt → pt.reputation ≤ 100 →
    ∃ pt', lookupA s'.profiles t = some pt' ∧
      pt'.reputation = min 100 (pt.reputation + 2) ∧
      pt'.reputation ≤ 100 ∧
      (pt.endorsements_received + 1 < 2 ^ 32 →
        pt'.endorsements_received = pt.endorsements_received + 1)) ∧
  (∀ o n m sk now s' st, register_agent s o n m sk now = .ok s' →
    s.stats = some st → st.total_agents + 1 < 2 ^ 64 →
    ∃ st', s'.stats = some st' ∧ st'.total_agents = st.total_agents + 1)

/-- C5 conclusion.  Registration with valid inputs succeeds, the new
profile starts at reputation 50 with zero endorsements, `total_agents`
goes up by one, and a second registration of the same owner fails with
AlreadyRegistered whatever its arguments. -/
def registerOutcome (s : VaultState) (o : Pubkey) (n m : String)
    (sk : List String) (now : Int) (st : RegistryStats) : Prop :=
  ∃ s', register_agent s o n m sk now = .ok s' ∧
    (∃ p, lookupA s'.profiles o = some p ∧
      p.reputation = 50 ∧ p.endorsements_received = 0) ∧
    (∃ st', s'.stats = some st' ∧ st'.total_agents = st.total_agents + 1) ∧
    (∀ n2 m2 sk2 now2, register_agent s' o n2 m2 sk2 now2 = .error .AlreadyRegistered)

/-- C6 conclusion.  From the state s1 right after A registered with
skills ["rust"]: B's endorsement takes A to reputation 52 with one
endorsement received; B's revocation brings A back to 50 and 0 and
removes the endorsement record; and B can immediately endorse the same
skill again. -/
def endorseRevokeRoundTrip (s1 : VaultState) (A B : Pubkey) : Prop :=
  ∀ now2 : Int, ∃ s2 s3 : VaultState,
    endorse_skill s1 B A "rust" now2 = .ok s2 ∧
    (∃ pA2, lookupA s2.profiles A = some pA2 ∧
      pA2.reputation = 52 ∧ pA2.endorsements_received = 1) ∧
    revoke_endorsement s2 B A "rust" = .ok s3 ∧
    (∃ pA3, lookupA s3.profiles A = some pA3 ∧
      pA3.reputation = 50 ∧ pA3.endorsements_received = 0) ∧
    lookupA s3.endorsements (B, A, "rust") = none ∧
    (∀ now4 : Int, ∃ s4, endorse_skill s3 B A "rust" now4 = .ok s4)

/-- C7 conclusion.  The rejection order of the endorsement checks:
an over-long skill name is rejected first with SkillNameTooLong; with a
valid length, endorsing oneself is rejected with CannotEndorseSelf
whatever the target's skills say; with a valid length and a distinct
target, a skill the target has not literally declared is rejected with
SkillNotDeclared. -/
def endorseRejectOrder (s : VaultState) (e t : Pubkey) (now : Int)
    (p : AgentProfile) : Prop :=
  (∀ sk : String, 32 < sk.utf8ByteSize →
    endorse_skill s e t sk now = .error .SkillNameTooLong) ∧
  (∀ sk : String, sk.utf8ByteSize ≤ 32 → e = t →
    endorse_skill s e t sk now = .error .CannotEndorseSelf) ∧
  (∀ sk : String, sk.utf8ByteSize ≤ 32 → e ≠ t → sk ∉ p.skills →
    endorse_skill s e t sk now = .error .SkillNotDeclared)

/-- C8 conclusion.  On a successful `update_profile`, an absent
optional field leaves its attribute as it was, a present one replaces
it wholesale, `last_active` is refreshed, and every other field is
untouched; and the call with a valid metadata URI and absent skills
succeeds. -/
def updateOutcome (s : VaultState) (o : Pubkey) (agent : AgentProfile)
    (now : Int) : Prop :=
  (∀ mu sks s', update_profile s o mu sks now = .ok s' →
    ∃ p', lookupA s'.profiles o = some p' ∧
      p'.last_active = now ∧
      p'.metadata_uri = mu.getD agent.metadata_uri ∧
      p'.skills = sks.getD agent.skills ∧
      p'.wallet = agent.wallet ∧ p'.name = agent.name ∧
      p'.reputation = agent.reputation ∧
      p'.endorsements_received = agent.endorsements_received ∧
      p'.registered_at = agent.registered_at) ∧
  (∀ uri : String, uri.utf8ByteSize ≤ 200 →
    ∃ s', update_profile s o (some uri) none now = .ok s' ∧
      ∃ p', lookupA s'.profiles o = some p' ∧
        p'.skills = agent.skills ∧ p'.metadata_uri = uri ∧ p'.last_active = now)

/-- C9 conclusion.  `total_endorsements` is 0 in the state, is set to 0
by registry setup, and neither endorsing nor revoking touches the
RegistryStats record at all. -/
def totalEndorsementsFrozen (s : VaultState) : Prop :=
  (∀ st, s.stats = some st → st.total_endorsements = 0) ∧
  (∀ a s', initialize_registry s a = .ok s' →
    ∀ st, s'.stats = some st → st.total_endorsements = 0) ∧
  (∀ e t sk now s', endorse_skill s e t sk now = .ok s' → s'.stats = s.stats) ∧
  (∀ e t sk s', revoke_endorsement s e t sk = .ok s' → s'.stats = s.stats)

/-- C10 conclusion.  An identity with no registered profile of its own
cannot endorse anyone, and a successful endorsement refreshes the
endorser's own `last_active`. -/
def endorserNeedsProfile (s : VaultState) (e t : Pubkey) (sk : String)
    (now : Int) : Prop :=
  (lookupA s.profiles e = none → ∀ s', endorse_skill s e t sk now ≠ .ok s') ∧
  (∀ s' pe, endorse_skill s e t sk now = .ok s' → lookupA s.profiles e = some pe →
    ∃ pe', lookupA s'.profiles e = some pe' ∧ pe'.last_active = now)

/-! ### Concrete states for witnesses and counterexamples -/

/-- Registry after one-time setup by authority 0. -/
def stateInit : VaultState := applyOp State0 (.initRegistry 0)

/-- Registry after agent 2 ("bob", no skills) registered. -/
def stateB : VaultState := applyOp stateInit (.register 2 "bob" "u2" [] 6)

/-- Registry after agent 1 ("alice", skills ["rust"]) registered too. -/
def stateBA : VaultState := applyOp stateB (.register 1 "alice" "uri" ["rust"] 5)

/-- Stats record right after setup by authority 0. -/
def statsZero : RegistryStats := { total_agents := 0, total_endorsements := 0, authority := 0 }

/-- Bob's stored profile in stateBA. -/
def bobProfile : AgentProfile := freshProfile 2 "bob" "u2" [] 6

/-- Alice's stored profile in stateBA. -/
def aliceProfile : AgentProfile := freshProfile 1 "alice" "uri" ["rust"] 5

/-- A stored profile whose u8 reputation byte is 255: a representable
account state, outside the documented [0, 100] range. -/
def profile255 : AgentProfile :=
  { wallet := 1, name := "a", metadata_uri := "m", skills := ["rust"],
    reputation := 255, endorsements_received := 0, registered_at := 0, last_active := 0 }

/-- An endorser profile for the wrap counterexample. -/
def profileW2 : AgentProfile :=
  { wallet := 2, name := "b", metadata_uri := "m", skills := [],
    reputation := 50, endorsements_received := 0, registered_at := 0, last_active := 0 }

/-- Store holding profile255 at key 1 and profileW2 at key 2. -/
def stateWrap : VaultState :=
  { stats := none, profiles := [(1, profile255), (2, profileW2)], endorsements := [] }

/-! ### Inversion lemmas: what a successful operation did -/

theorem applyOp_ok {s s' : VaultState} {op : Op} (h : step s op = .ok s') :
    applyOp s op = s' := by
  unfold applyOp
  rw [h]

theorem applyOp_error {s : VaultState} {op : Op} {e : AgentVaultError}
    (h : step s op = .error e) : applyOp s op = s := by
  unfold applyOp
  rw [h]

theorem initialize_registry_ok {s s' : VaultState} {a : Pubkey}
    (h : initialize_registry s a = .ok s') :
    s.stats = none ∧
      s' = { s with stats := some { total_agents := 0, total_endorsements := 0, authority := a } } := by
  unfold initialize_registry at h
  split at h
  · exact absurd h (by simp)
  · rename_i hst
    exact ⟨hst, (Except.ok.injEq _ _).mp h |>.symm⟩

theorem register_agent_ok {s s' : VaultState} {o : Pubkey} {n m : String}
    {sk : List String} {now : Int} (h : register_agent s o n m sk now = .ok s') :
    lookupA s.profiles o = none ∧ n.utf8ByteSize ≤ 32 ∧ m.utf8ByteSize ≤ 200 ∧
      sk.length ≤ 10 ∧
      ∃ st, s.stats = some st ∧
        s' = { s with
          profiles := (o, freshProfile o n m sk now) :: s.profiles
          stats := some { st with total_agents := (st.total_agents + 1) % 2 ^ 64 } } := by
  unfold register_agent at h
  split at h
  · exact absurd h (by simp)
  · rename_i hfresh
    split at h
    · exact absurd h (by simp)
    · rename_i st hst
      split at h
      · exact absurd h (by simp)
      · split at h
        · exact absurd h (by simp)
        · split at h
          · exact absurd h (by simp)
          · rename_i hn hm hsk
            refine ⟨hfresh, by omega, by omega, by omega, st, hst, ?_⟩
            exact ((Except.ok.injEq _ _).mp h).symm

theorem update_profile_eq_none_none (s : VaultState) (o : Pubkey) (now : Int) :
    update_profile s o none none now =
      (match lookupA s.profiles o with
      | none => .error .RecordNotFound
      | some agent =>
        if agent.wallet ≠ o then .error .Unauthorized
        else .ok { s with profiles := updA s.profiles o (fun a =>
          { a with last_active := now }) }) := rfl

theorem update_profile_eq_some_none (s : VaultState) (o : Pubkey) (uri : String) (now : Int) :
    update_profile s o (some uri) none now =
      (match lookupA s.profiles o with
      | none => .error .RecordNotFound
      | some agent =>
        if agent.wallet ≠ o then .error .Unauthorized
        else if 200 < uri.utf8ByteSize then .error .MetadataUriTooLong
        else .ok { s with profiles := updA s.profiles o (fun a =>
          { a with metadata_uri := uri, last_active := now }) }) := rfl

theorem update_profile_eq_none_some (s : VaultState) (o : Pubkey) (ns : List String) (now : Int) :
    update_profile s o none (some ns) now =
      (match lookupA s.profiles o with
      | none => .error .RecordNotFound
      | some agent =>
        if agent.wallet ≠ o then .error .Unauthorized
        else if 10 < ns.length then .error .TooManySkills
        else .ok { s with profiles := updA s.profiles o (fun a =>
          { a with skills := ns, last_active := now }) }) := rfl

theorem update_profile_eq_some_some (s : VaultState) (o : Pubkey) (uri : String)
    (ns : List String) (now : Int) :
    update_profile s o (some uri) (some ns) now =
      (match lookupA s.profiles o with
      | none => .error .RecordNotFound
      | some agent =>
        if agent.wallet ≠ o then .error .Unauthorized
        else if 200 < uri.utf8ByteSize then .error .MetadataUriTooLong
        else if 10 < ns.length then .error .TooManySkills
        else .ok { s with profiles := updA s.profiles o (fun a =>
          { a with metadata_uri := uri, skills := ns, last_active := now }) }) := rfl

theorem update_profile_ok {s s' : VaultState} {o : Pubkey}
    {mu : Option String} {sks : Option (List String)} {now : Int}
    (h : update_profile s o mu sks now = .ok s') :
    ∃ agent, lookupA s.profiles o = some agent ∧ agent.wallet = o ∧
      (∀ uri, mu = some uri → uri.utf8ByteSize ≤ 200) ∧
      (∀ ns, sks = some ns → ns.length ≤ 10) ∧
      s' = { s with profiles := updA s.profiles o (fun a =>
        { a with metadata_uri := mu.getD a.metadata_uri
                 skills := sks.getD a.skills
                 last_active := now }) } := by
  rcases mu with _ | uri <;> rcases sks with _ | ns
  · rw [update_profile_eq_none_none] at h
    split at h
    · exact absurd h (by simp)
    · rename_i agent hag
      split at h
      · exact absurd h (by simp)
      · rename_i hw
        rw [not_not] at hw
        exact ⟨agent, hag, hw, by simp, by simp, ((Except.ok.injEq _ _).mp h).symm⟩
  · rw [update_profile_eq_none_some] at h
    split at h
    · exact absurd h (by simp)
    · rename_i agent hag
      split at h
      · exact absurd h (by simp)
      · rename_i hw
        rw [not_not] at hw
        split at h
        · exact absurd h (by simp)
        · rename_i hns
          refine ⟨agent, hag, hw, by simp, ?_, ((Except.ok.injEq _ _).mp h).symm⟩
          intro l hl
          cases hl
          omega
  · rw [update_profile_eq_some_none] at h
    split at h
    · exact absurd h (by simp)
    · rename_i agent hag
      split at h
      · exact absurd h (by simp)
      · rename_i hw
        rw [not_not] at hw
        split at h
        · exact absurd h (by simp)
        · rename_i huri
          refine ⟨agent, hag, hw, ?_, by simp, ((Except.ok.injEq _ _).mp h).symm⟩
          intro u hu
          cases hu
          omega
  · rw [update_profile_eq_some_some] at h
    split at h
    · exact absurd h (by simp)
    · rename_i agent hag
      split at h
      · exact absurd h (by simp)
      · rename_i hw
        rw [not_not] at hw
        split at h
        · exact absurd h (by simp)
        · split at h
          · exact absurd h (by simp)
          · rename_i huri hns
            refine ⟨agent, hag, hw, ?_, ?_, ((Except.ok.injEq _ _).mp h).symm⟩
            · intro u hu
              cases hu
              omega
            · intro l hl
              cases hl
              omega

theorem endorse_skill_ok {s s' : VaultState} {e t : Pubkey} {sk : String} {now : Int}
    (h : endorse_skill s e t sk now = .ok s') :
    sk.utf8ByteSize ≤ 32 ∧ e ≠ t ∧
      ∃ pt, lookupA s.profiles t = some pt ∧ sk ∈ pt.skills ∧
        lookupA s.endorsements (e, t, sk) = none ∧
        (∃ pe, lookupA s.profiles e = some pe) ∧
        s' = { s with
          endorsements := ((e, t, sk),
            { endorser := e, target := t, skill := sk, timestamp := now }) :: s.endorsements
          profiles := updA (updA s.profiles t (endorseTarget now)) e (fun p =>
            { p with last_active := now }) } := by
  unfold endorse_skill at h
  split at h
  · exact absurd h (by simp)
  · rename_i hlen
    split at h
    · exact absurd h (by simp)
    · rename_i hself
      split at h
      · exact absurd h (by simp)
      · rename_i pt hpt
        split at h
        · exact absurd h (by simp)
        · rename_i hdecl
          rw [not_not] at hdecl
          split at h
          · exact absurd h (by simp)
          · rename_i hdup
            split at h
            · exact absurd h (by simp)
            · rename_i pe hpe
              refine ⟨by omega, hself, pt, hpt, hdecl, hdup, ⟨pe, hpe⟩, ?_⟩
              rw [show endorseTarget now = (fun p : AgentProfile =>
                { p with
                  endorsements_received := (p.endorsements_received + 1) % 2 ^ 32
                  reputation := min 100 ((p.reputation + 2) % 2 ^ 8)
                  last_active := now }) from rfl]
              exact ((Except.ok.injEq _ _).mp h).symm

theorem revoke_endorsement_ok {s s' : VaultState} {e t : Pubkey} {sk : String}
    (h : revoke_endorsement s e t sk = .ok s') :
    ∃ rec, lookupA s.endorsements (e, t, sk) = some rec ∧ rec.endorser = e ∧
      (∃ pt, lookupA s.profiles t = some pt) ∧
      s' = { s with
        endorsements := eraseA s.endorsements (e, t, sk)
        profiles := updA s.profiles t revokeTarget } := by
  unfold revoke_endorsement at h
  split at h
  · exact absurd h (by simp)
  · rename_i rec hrec
    split at h
    · exact absurd h (by simp)
    · rename_i hown
      rw [not_not] at hown
      split at h
      · exact absurd h (by simp)
      · rename_i pt hpt
        exact ⟨rec, hrec, hown, ⟨pt, hpt⟩, ((Except.ok.injEq _ _).mp h).symm⟩

/-! ### Success lemmas: sufficient conditions with the exact result -/

theorem initialize_registry_succeeds {s : VaultState} {a : Pubkey} (h : s.stats = none) :
    initialize_registry s a = .ok { s with
      stats := some { total_agents := 0, total_endorsements := 0, authority := a } } := by
  unfold initialize_registry
  rw [h]

theorem register_agent_succeeds {s : VaultState} {o : Pubkey} {n m : String}
    {sk : List String} {now : Int} {st : RegistryStats}
    (hfresh : lookupA s.profiles o = none) (hst : s.stats = some st)
    (hn : n.utf8ByteSize ≤ 32) (hm : m.utf8ByteSize ≤ 200) (hsk : sk.length ≤ 10) :
    register_agent s o n m sk now = .ok { s with
      profiles := (o, freshProfile o n m sk now) :: s.profiles
      stats := some { st with total_agents := (st.total_agents + 1) % 2 ^ 64 } } := by
  unfold register_agent
  simp only [hfresh, hst]
  rw [if_neg (by omega), if_neg (by omega), if_neg (by omega)]

theorem update_profile_succeeds_some_none {s : VaultState} {o : Pubkey} {uri : String}
    {now : Int} {agent : AgentProfile}
    (hag : lookupA s.profiles o = some agent) (hw : agent.wallet = o)
    (hu : uri.utf8ByteSize ≤ 200) :
    update_profile s o (some uri) none now = .ok { s with
      profiles := updA s.profiles o (fun a =>
        { a with metadata_uri := uri, last_active := now }) } := by
  rw [update_profile_eq_some_none]
  simp only [hag]
  rw [if_neg (not_not_intro hw), if_neg (by omega)]

theorem endorse_skill_succeeds {s : VaultState} {e t : Pubkey} {sk : String} {now : Int}
    {pt pe : AgentProfile}
    (hlen : sk.utf8ByteSize ≤ 32) (hne : e ≠ t)
    (hpt : lookupA s.profiles t = some pt) (hdecl : sk ∈ pt.skills)
    (hdup : lookupA s.endorsements (e, t, sk) = none)
    (hpe : lookupA s.profiles e = some pe) :
    endorse_skill s e t sk now = .ok { s with
      endorsements := ((e, t, sk),
        { endorser := e, target := t, skill := sk, timestamp := now }) :: s.endorsements
      profiles := updA (updA s.profiles t (endorseTarget now)) e (fun p =>
        { p with last_active := now }) } := by
  unfold endorse_skill
  rw [if_neg (by omega), if_neg hne]
  simp only [hpt]
  rw [if_neg (not_not_intro hdecl)]
  simp only [hdup, hpe]
  rfl

theorem revoke_endorsement_succeeds {s : VaultState} {e t : Pubkey} {sk : String}
    {rec : Endorsement} {pt : AgentProfile}
    (hrec : lookupA s.endorsements (e, t, sk) = some rec) (hown : rec.endorser = e)
    (hpt : lookupA s.profiles t = some pt) :
    revoke_endorsement s e t sk = .ok { s with
      endorsements := eraseA s.endorsements (e, t, sk)
      profiles := updA s.profiles t revokeTarget } := by
  unfold revoke_endorsement
  simp only [hrec]
  rw [if_neg (not_not_intro hown)]
  simp only [hpt]
  rfl

/-! ### Invariants over reachable states -/

theorem repOK_updA {l : List (Pubkey × AgentProfile)} {k0 : Pubkey}
    {f : AgentProfile → AgentProfile}
    (hl : ∀ k p, lookupA l k = some p → p.reputation ≤ 100)
    (hf : ∀ p, p.reputation ≤ 100 → (f p).reputation ≤ 100) :
    ∀ k p, lookupA (updA l k0 f) k = some p → p.reputation ≤ 100 := by
  intro k p hp
  rw [lookupA_updA] at hp
  split at hp
  · obtain ⟨q, hq, hfq⟩ := Option.map_eq_some'.mp hp
    rw [← hfq]
    exact hf q (hl k q hq)
  · exact hl k p hp

theorem repOK_step (op : Op) {s : VaultState} (h : repOK s) : repOK (applyOp s op) := by
  cases hstep : step s op with
  | error e => rw [applyOp_error hstep]; exact h
  | ok s' =>
    rw [applyOp_ok hstep]
    cases op with
    | initRegistry a =>
      obtain ⟨-, rfl⟩ := initialize_registry_ok hstep
      exact fun k p hp => h k p hp
    | register o n m sk now =>
      obtain ⟨hfresh, hn, hm, hsk, st, hst, rfl⟩ := register_agent_ok hstep
      intro k p hp
      rw [show lookupA ((o, freshProfile o n m sk now) :: s.profiles) k =
        if o = k then some (freshProfile o n m sk now) else lookupA s.profiles k from rfl] at hp
      split at hp
      · cases hp
        exact Nat.le_of_sub_eq_zero rfl
      · exact h k p hp
    | update o mu sks now =>
      obtain ⟨agent, hag, hw, hu, hs, rfl⟩ := update_profile_ok hstep
      exact repOK_updA h (fun p hp => hp)
    | endorse e t sk now =>
      obtain ⟨hlen, hne, pt, hpt, hdecl, hdup, hpe, rfl⟩ := endorse_skill_ok hstep
      refine repOK_updA (repOK_updA h ?_) (fun p hp => hp)
      intro p hp
      exact min_le_left 100 _
    | revoke e t sk =>
      obtain ⟨rec, hrec, hown, hpt, rfl⟩ := revoke_endorsement_ok hstep
      refine repOK_updA h ?_
      intro p hp
      exact le_trans (Nat.sub_le _ _) hp

theorem repOK_reachable {s : VaultState} (h : Reachable s) : repOK s := by
  induction h with
  | init =>
    intro k p hp
    simp [State0, lookupA] at hp
  | step op hr ih => exact repOK_step op ih

theorem stats_unchanged_update {s s' : VaultState} {o : Pubkey} {mu : Option String}
    {sks : Option (List String)} {now : Int}
    (h : update_profile s o mu sks now = .ok s') : s'.stats = s.stats := by
  obtain ⟨agent, hag, hw, hu, hs, rfl⟩ := update_profile_ok h
  rfl

theorem stats_unchanged_endorse {s s' : VaultState} {e t : Pubkey} {sk : String} {now : Int}
    (h : endorse_skill s e t sk now = .ok s') : s'.stats = s.stats := by
  obtain ⟨hlen, hne, pt, hpt, hdecl, hdup, hpe, rfl⟩ := endorse_skill_ok h
  rfl

theorem stats_unchanged_revoke {s s' : VaultState} {e t : Pubkey} {sk : String}
    (h : revoke_endorsement s e t sk = .ok s') : s'.stats = s.stats := by
  obtain ⟨rec, hrec, hown, hpt, rfl⟩ := revoke_endorsement_ok h
  rfl

theorem statsEndZero_step (op : Op) {s : VaultState} (h : statsEndZero s) :
    statsEndZero (applyOp s op) := by
  cases hstep : step s op with
  | error e => rw [applyOp_error hstep]; exact h
  | ok s' =>
    rw [applyOp_ok hstep]
    cases op with
    | initRegistry a =>
      obtain ⟨-, rfl⟩ := initialize_registry_ok hstep
      intro st hst
      cases hst
      rfl
    | register o n m sk now =>
      obtain ⟨hfresh, hn, hm, hsk, st0, hst0, rfl⟩ := register_agent_ok hstep
      intro st hst
      cases hst
      exact h st0 hst0
    | update o mu sks now =>
      intro st hst
      rw [stats_unchanged_update hstep] at hst
      exact h st hst
    | endorse e t sk now =>
      intro st hst
      rw [stats_unchanged_endorse hstep] at hst
      exact h st hst
    | revoke e t sk =>
      intro st hst
      rw [stats_unchanged_revoke hstep] at hst
      exact h st hst

theorem statsEndZero_reachable {s : VaultState} (h : Reachable s) : statsEndZero s := by
  induction h with
  | init =>
    intro st hst
    cases hst
  | step op hr ih => exact statsEndZero_step op ih

/-! ### Claim theorems -/

theorem reachable_stateBA : Reachable stateBA :=
  Reachable.step (.register 1 "alice" "uri" ["rust"] 5)
    (Reachable.step (.register 2 "bob" "u2" [] 6)
      (Reachable.step (.initRegistry 0) Reachable.init))

/-- C1.  In every reachable state, every operation keeps every
profile's reputation in [0, 100] and `endorsements_received` never
underflows: registration sets reputation to exactly 50, endorsing a
target already at 100 leaves it at 100, and revoking a target at
reputation 0 or 1 (or with `endorsements_received` 0) leaves those
fields at 0. -/
theorem reputation_bounded_reachable (s : VaultState) (h : Reachable s) : repBounds s := by
  refine ⟨repOK_reachable h, ?_, ?_, ?_⟩
  · intro o n m sk now s' hreg p hp
    obtain ⟨hfresh, hn, hm, hsk, st, hst, rfl⟩ := register_agent_ok hreg
    rw [show lookupA ((o, freshProfile o n m sk now) :: s.profiles) o =
      some (freshProfile o n m sk now) from if_pos rfl] at hp
    cases hp
    exact ⟨rfl, rfl⟩
  · intro e t sk now s' hend pt hpt h100 pt' hpt'
    obtain ⟨hlen, hne, pt0, hpt0, hdecl, hdup, hpe, rfl⟩ := endorse_skill_ok hend
    rw [hpt0] at hpt
    cases hpt
    rw [show lookupA (updA (updA s.profiles t (endorseTarget now)) e fun p =>
          { p with last_active := now }) t =
        lookupA (updA s.profiles t (endorseTarget now)) t from by
      rw [lookupA_updA, if_neg hne], lookupA_updA, if_pos rfl, hpt0] at hpt'
    cases hpt'
    show min 100 ((pt.reputation + 2) % 2 ^ 8) = 100
    rw [h100]
    decide
  · intro e t sk s' hrev pt hpt pt' hpt'
    obtain ⟨rec, hrec, hown, ⟨pt0, hpt0⟩, rfl⟩ := revoke_endorsement_ok hrev
    rw [show lookupA (updA s.profiles t revokeTarget) t =
        Option.map revokeTarget (lookupA s.profiles t) from by
      rw [lookupA_updA, if_pos rfl], hpt] at hpt'
    cases hpt'
    constructor
    · intro h1
      show pt.reputation - 2 = 0
      omega
    · intro h0
      show pt.endorsements_received - 1 = 0
      omega

/-- C1 witness: the reachable two-agent state satisfies the bounds. -/
theorem reputation_bounded_reachable_witness : repBounds stateBA :=
  reputation_bounded_reachable stateBA reachable_stateBA

/-- C2.  Whenever an operation returns an error, the committed state is
unchanged in every field (the ledger rolls the instruction back as a
unit); in particular `update_profile` with a valid metadata URI and a
skills list of more than 10 entries fails with TooManySkills and leaves
the state, metadata URI included, as it was. -/
theorem error_commits_nothing (s : VaultState) : atomicOnError s := by
  constructor
  · intro op e h
    exact applyOp_error h
  · intro o agent uri ns now hag hw hu hns
    have herr : update_profile s o (some uri) (some ns) now = .error .TooManySkills := by
      rw [update_profile_eq_some_some]
      simp only [hag]
      rw [if_neg (not_not_intro hw), if_neg (by omega), if_pos hns]
    exact ⟨herr, @applyOp_error s (.update o (some uri) (some ns) now) .TooManySkills herr⟩

/-- C9.  `total_endorsements` is set to 0 at registry setup and no
operation ever changes it afterwards: it is 0 in every reachable state,
and endorsing or revoking leaves the RegistryStats record untouched. -/
theorem total_endorsements_never_moves (s : VaultState) (h : Reachable s) :
    totalEndorsementsFrozen s := by
  refine ⟨statsEndZero_reachable h, ?_, ?_, ?_⟩
  · intro a s' hinit st hst
    obtain ⟨-, rfl⟩ := initialize_registry_ok hinit
    cases hst
    rfl
  · intro e t sk now s' hend
    exact stats_unchanged_endorse hend
  · intro e t sk s' hrev
    exact stats_unchanged_revoke hrev

/-- C9 witness: the reachable two-agent state. -/
theorem total_endorsements_never_moves_witness : totalEndorsementsFrozen stateBA :=
  total_endorsements_never_moves stateBA reachable_stateBA

/-- C10.  `endorse_skill` cannot succeed for an endorser with no
registered profile of their own, and on success the endorser's own
profile's `last_active` is set to the current time. -/
theorem endorser_profile_required (s : VaultState) (e t : Pubkey) (sk : String) (now : Int) :
    endorserNeedsProfile s e t sk now := by
  constructor
  · intro hnone s' h
    obtain ⟨-, -, pt, -, -, -, ⟨pe, hpe⟩, -⟩ := endorse_skill_ok h
    rw [hnone] at hpe
    cases hpe
  · intro s' pe h hpe
    obtain ⟨hlen, hne, pt, hpt, hdecl, hdup, -, rfl⟩ := endorse_skill_ok h
    refine ⟨{ pe with last_active := now }, ?_, rfl⟩
    rw [lookupA_updA, if_pos rfl, lookupA_updA,
      if_neg (fun hte => hne hte.symm), hpe]
    rfl

/-- C7.  `endorse_skill` rejects per its precondition checks in source
order: SkillNameTooLong for a skill over 32 bytes; otherwise
CannotEndorseSelf when the endorser equals the target's wallet, even
when the skill is declared; otherwise SkillNotDeclared when the
target's skills do not literally contain the string. -/
theorem endorse_reject_order (s : VaultState) (e t : Pubkey) (now : Int)
    (p : AgentProfile) (hp : lookupA s.profiles t = some p) :
    endorseRejectOrder s e t now p := by
  refine ⟨?_, ?_, ?_⟩
  · intro sk hlong
    unfold endorse_skill
    rw [if_pos hlong]
  · intro sk hlen heq
    unfold endorse_skill
    rw [if_neg (by omega), if_pos heq]
  · intro sk hlen hne hnd
    unfold endorse_skill
    rw [if_neg (by omega), if_neg hne]
    simp only [hp]
    rw [if_pos hnd]

/-- C7 witness: in the two-agent state, endorsing alice checks out
against her stored profile. -/
theorem endorse_reject_order_witness : endorseRejectOrder stateBA 5 1 0 aliceProfile :=
  endorse_reject_order stateBA 5 1 0 aliceProfile (by decide)

/-- C8.  `update_profile` leaves an attribute untouched when the
optional field is absent, replaces it wholesale when present, always
refreshes `last_active`, and changes nothing else; in particular a call
with a metadata URI and no skills updates only those two fields. -/
theorem update_profile_frame (s : VaultState) (o : Pubkey) (agent : AgentProfile)
    (now : Int) (hag : lookupA s.profiles o = some agent) (hw : agent.wallet = o) :
    updateOutcome s o agent now := by
  constructor
  · intro mu sks s' h
    obtain ⟨agent0, hag0, hw0, hu, hs, rfl⟩ := update_profile_ok h
    rw [hag] at hag0
    cases hag0
    refine ⟨{ agent with
              metadata_uri := mu.getD agent.metadata_uri,
              skills := sks.getD agent.skills,
              last_active := now }, ?_, rfl, rfl, rfl, rfl, rfl, rfl, rfl, rfl⟩
    rw [lookupA_updA, if_pos rfl, hag]
    rfl
  · intro uri hu
    refine ⟨_, update_profile_succeeds_some_none hag hw hu, ?_⟩
    refine ⟨{ agent with metadata_uri := uri, last_active := now }, ?_, rfl, rfl, rfl⟩
    rw [lookupA_updA, if_pos rfl, hag]
    rfl

/-- C8 witness: updating alice's profile in the two-agent state. -/
theorem update_profile_frame_witness : updateOutcome stateBA 1 aliceProfile 9 :=
  update_profile_frame stateBA 1 aliceProfile 9 (by decide) (by decide)

/-- C4 counterexample.  The claim that no reputation update ever wraps
fails at a stored u8 reputation byte of 255: endorsing that target
computes min(100, (255 + 2) mod 2^8) = min(100, 1) = 1, a wrapped
u8 addition, while genuinely saturating arithmetic would have given
min(100, 255 + 2) = 100. -/
theorem endorse_wraps_at_255 :
    repOf (endorse_skill stateWrap 2 1 "rust" 7) 1 = some 1 ∧
      min 100 (255 + 2) = 100 := by
  constructor
  · decide
  · decide

/-- C4 (amended).  `revoke_endorsement` decrements with saturating
(truncated) subtraction for every input state; the increments are plain
machine arithmetic that coincides with the exact clamped value whenever
the state respects the documented bounds: with reputation ≤ 100 the
boost is exactly min 100 (reputation + 2) and stays ≤ 100, and the
counter increments are exactly +1 while below the u32 / u64 maxima. -/
theorem arithmetic_saturates_in_range (s : VaultState) : arithmeticProfile s := by
  refine ⟨?_, ?_, ?_⟩
  · intro e t sk s' pt hrev hpt
    obtain ⟨rec, hrec, hown, ⟨pt0, hpt0⟩, rfl⟩ := revoke_endorsement_ok hrev
    refine ⟨revokeTarget pt, ?_, rfl, rfl⟩
    rw [lookupA_updA, if_pos rfl, hpt]
    rfl
  · intro e t sk now s' pt hend hpt hle
    obtain ⟨hlen, hne, pt0, hpt0, hdecl, hdup, hpe, rfl⟩ := endorse_skill_ok hend
    rw [hpt0] at hpt
    cases hpt
    refine ⟨endorseTarget now pt, ?_, ?_, ?_, ?_⟩
    · rw [lookupA_updA, if_neg hne, lookupA_updA, if_pos rfl, hpt0]
      rfl
    · show min 100 ((pt.reputation + 2) % 2 ^ 8) = min 100 (pt.reputation + 2)
      rw [Nat.mod_eq_of_lt (by omega)]
    · exact min_le_left _ _
    · intro hc
      show (pt.endorsements_received + 1) % 2 ^ 32 = pt.endorsements_received + 1
      exact Nat.mod_eq_of_lt hc
  · intro o n m sk now s' st hreg hst hcap
    obtain ⟨hfresh, hn, hm, hsk, st0, hst0, rfl⟩ := register_agent_ok hreg
    rw [hst0] at hst
    cases hst
    refine ⟨_, rfl, ?_⟩
    show (st.total_agents + 1) % 2 ^ 64 = st.total_agents + 1
    exact Nat.mod_eq_of_lt hcap

/-- C5.  With valid inputs (name ≤ 32 bytes, metadata URI ≤ 200 bytes,
at most 10 skills), an unregistered owner and an initialized registry
whose u64 agent counter is below its maximum, `register_agent`
succeeds, the new profile has reputation 50 and zero endorsements,
`total_agents` goes up by one, and a second registration of the same
owner fails with AlreadyRegistered. -/
theorem register_agent_correct (s : VaultState) (o : Pubkey) (n m : String)
    (sk : List String) (now : Int) (st : RegistryStats)
    (hfresh : lookupA s.profiles o = none) (hst : s.stats = some st)
    (hn : n.utf8ByteSize ≤ 32) (hm : m.utf8ByteSize ≤ 200) (hsk : sk.length ≤ 10)
    (hcap : st.total_agents + 1 < 2 ^ 64) :
    registerOutcome s o n m sk now st := by
  refine ⟨_, register_agent_succeeds hfresh hst hn hm hsk, ?_, ?_, ?_⟩
  · refine ⟨freshProfile o n m sk now, ?_, rfl, rfl⟩
    exact if_pos rfl
  · refine ⟨_, rfl, ?_⟩
    show (st.total_agents + 1) % 2 ^ 64 = st.total_agents + 1
    exact Nat.mod_eq_of_lt hcap
  · intro n2 m2 sk2 now2
    unfold register_agent
    have : lookupA ((o, freshProfile o n m sk now) :: s.profiles) o =
        some (freshProfile o n m sk now) := if_pos rfl
    simp only [this]

/-- C5 witness: registering alice in the freshly initialized registry. -/
theorem register_agent_correct_witness :
    registerOutcome stateInit 1 "alice" "uri" ["rust"] 5 statsZero :=
  register_agent_correct stateInit 1 "alice" "uri" ["rust"] 5 statsZero
    (by decide) (by decide) (by decide) (by decide) (by decide) (by decide)

/-! ### Lookup across the endorse and revoke transitions -/

theorem endorse_ok_endorseState {s s' : VaultState} {e t : Pubkey} {sk : String} {now : Int}
    (h : endorse_skill s e t sk now = .ok s') : s' = endorseState s e t sk now := by
  obtain ⟨-, -, pt, -, -, -, -, rfl⟩ := endorse_skill_ok h
  rfl

theorem revoke_ok_revokeState {s s' : VaultState} {e t : Pubkey} {sk : String}
    (h : revoke_endorsement s e t sk = .ok s') : s' = revokeState s e t sk := by
  obtain ⟨rec, -, -, -, rfl⟩ := revoke_endorsement_ok h
  rfl

theorem lookupA_endorseState_target (s : VaultState) (e t : Pubkey) (sk : String)
    (now : Int) (pt : AgentProfile) (hpt : lookupA s.profiles t = some pt) (hne : e ≠ t) :
    lookupA (endorseState s e t sk now).profiles t = some (endorseTarget now pt) := by
  show lookupA (updA (updA s.profiles t (endorseTarget now)) e fun p =>
    { p with last_active := now }) t = some (endorseTarget now pt)
  rw [lookupA_updA, if_neg hne, lookupA_updA, if_pos rfl, hpt]
  rfl

theorem lookupA_endorseState_endorser (s : VaultState) (e t : Pubkey) (sk : String)
    (now : Int) (pe : AgentProfile) (hpe : lookupA s.profiles e = some pe) (hne : e ≠ t) :
    lookupA (endorseState s e t sk now).profiles e = some { pe with last_active := now } := by
  show lookupA (updA (updA s.profiles t (endorseTarget now)) e fun p =>
    { p with last_active := now }) e = some { pe with last_active := now }
  rw [lookupA_updA, if_pos rfl, lookupA_updA, if_neg (fun h => hne h.symm), hpe]
  rfl

theorem endorseState_lookup_endorsement (s : VaultState) (e t : Pubkey) (sk : String)
    (now : Int) :
    lookupA (endorseState s e t sk now).endorsements (e, t, sk) =
      some { endorser := e, target := t, skill := sk, timestamp := now } :=
  if_pos rfl

theorem lookupA_revokeState_target (s : VaultState) (e t : Pubkey) (sk : String)
    (pt : AgentProfile) (hpt : lookupA s.profiles t = some pt) :
    lookupA (revokeState s e t sk).profiles t = some (revokeTarget pt) := by
  show lookupA (updA s.profiles t revokeTarget) t = some (revokeTarget pt)
  rw [lookupA_updA, if_pos rfl, hpt]
  rfl

theorem lookupA_revokeState_other (s : VaultState) (e t : Pubkey) (sk : String)
    (k : Pubkey) (hk : t ≠ k) :
    lookupA (revokeState s e t sk).profiles k = lookupA s.profiles k := by
  show lookupA (updA s.profiles t revokeTarget) k = lookupA s.profiles k
  rw [lookupA_updA, if_neg hk]

theorem revokeState_lookup_none (s : VaultState) (e t : Pubkey) (sk : String) :
    lookupA (revokeState s e t sk).endorsements (e, t, sk) = none := by
  show lookupA (eraseA s.endorsements (e, t, sk)) (e, t, sk) = none
  rw [lookupA_eraseA, if_pos rfl]

theorem countOk_cons (s : VaultState) (op : Op) (rest : List Op) :
    countOk s (op :: rest) =
      (match step s op with | .ok _ => 1 | .error _ => 0) +
        countOk (applyOp s op) rest := rfl

theorem countOk_endorse_zero {s : VaultState} {e t : Pubkey} {sk : String}
    (hdup : lookupA s.endorsements (e, t, sk) ≠ none) (ts : List Int) :
    countOk s (ts.map (Op.endorse e t sk)) = 0 := by
  induction ts with
  | nil => rfl
  | cons a ts ih =>
    rw [List.map_cons, countOk_cons]
    cases hstep : step s (.endorse e t sk a) with
    | ok s1 =>
      obtain ⟨-, -, pt, -, -, hd, -, -⟩ := endorse_skill_ok hstep
      exact absurd hd hdup
    | error err =>
      rw [applyOp_error hstep]
      show 0 + countOk s (ts.map (Op.endorse e t sk)) = 0
      rw [Nat.zero_add]
      exact ih

/-- C3.  At most one endorsement per (endorser, target, skill) triple
can exist: right after a successful endorsement a second attempt of the
same triple fails with DuplicateEndorsement, any revoke-free run of
endorsements of the triple has at most one success, and once the triple
is revoked a fresh endorsement of it succeeds again. -/
theorem endorsement_unique_per_triple (s : VaultState) (e t : Pubkey) (sk : String) :
    endorseOncePerTriple s e t sk := by
  refine ⟨?_, ?_, ?_⟩
  · intro now now' s1 h
    obtain ⟨hlen, hne, pt, hpt, hdecl, hdup, ⟨pe, hpe⟩, rfl⟩ := endorse_skill_ok h
    unfold endorse_skill
    rw [if_neg (by omega), if_neg hne]
    have h1 : lookupA (endorseState s e t sk now).profiles t = some (endorseTarget now pt) :=
      lookupA_endorseState_target s e t sk now pt hpt hne
    have h2 : lookupA (endorseState s e t sk now).endorsements (e, t, sk) =
        some { endorser := e, target := t, skill := sk, timestamp := now } :=
      endorseState_lookup_endorsement s e t sk now
    show (match lookupA (endorseState s e t sk now).profiles t with
      | none => Except.error AgentVaultError.RecordNotFound
      | some target =>
        if sk ∉ target.skills then Except.error AgentVaultError.SkillNotDeclared
        else
          match lookupA (endorseState s e t sk now).endorsements (e, t, sk) with
          | some _ => Except.error AgentVaultError.DuplicateEndorsement
          | none =>
            match lookupA (endorseState s e t sk now).profiles e with
            | none => Except.error AgentVaultError.RecordNotFound
            | some _ => Except.ok (endorseState (endorseState s e t sk now) e t sk now')) =
      Except.error AgentVaultError.DuplicateEndorsement
    simp only [h1]
    rw [if_neg (not_not_intro (show sk ∈ (endorseTarget now pt).skills from hdecl))]
    simp only [h2]
  · intro ts
    induction ts generalizing s with
    | nil => exact Nat.zero_le 1
    | cons a ts ih =>
      rw [List.map_cons, countOk_cons]
      cases hstep : step s (.endorse e t sk a) with
      | ok s1 =>
        rw [applyOp_ok hstep]
        have hs1 : s1 = endorseState s e t sk a := endorse_ok_endorseState hstep
        have hsome : lookupA s1.endorsements (e, t, sk) =
            some { endorser := e, target := t, skill := sk, timestamp := a } := by
          rw [hs1]
          exact endorseState_lookup_endorsement s e t sk a
        have hzero : countOk s1 (ts.map (Op.endorse e t sk)) = 0 :=
          countOk_endorse_zero (fun hnone => by rw [hsome] at hnone; cases hnone) ts
        show 1 + countOk s1 (ts.map (Op.endorse e t sk)) ≤ 1
        rw [hzero]
      | error err =>
        rw [applyOp_error hstep]
        show 0 + countOk s (ts.map (Op.endorse e t sk)) ≤ 1
        rw [Nat.zero_add]
        exact ih s
  · intro s' now pt pe hrev hpt hdecl hlen hne hpe
    have hs' : s' = revokeState s e t sk := revoke_ok_revokeState hrev
    subst hs'
    exact ⟨_, endorse_skill_succeeds hlen hne
      (lookupA_revokeState_target s e t sk pt hpt) hdecl
      (revokeState_lookup_none s e t sk)
      (by rw [lookupA_revokeState_other s e t sk e (fun h => hne h.symm)]; exact hpe)⟩

/-- C6.  Revocation inverts endorsement away from the bounds: after A
registers with skills ["rust"] (reputation 50) and B (registered, with
B distinct from A and no prior endorsement of the triple) endorses A's
"rust", A is at reputation 52 with one endorsement received; after B's
revoke A is back at 50 with zero received, the endorsement record is
gone, and B can immediately endorse the same skill again. -/
theorem revoke_inverts_endorse (s s1 : VaultState) (A B : Pubkey) (n m : String)
    (now0 : Int) (pB : AgentProfile)
    (hreg : register_agent s A n m ["rust"] now0 = .ok s1)
    (hB : lookupA s1.profiles B = some pB)
    (hAB : A ≠ B)
    (hnoE : lookupA s1.endorsements (B, A, "rust") = none) :
    endorseRevokeRoundTrip s1 A B := by
  obtain ⟨hfresh, hn, hm, hsk, st, hst, hs1⟩ := register_agent_ok hreg
  have hBA : B ≠ A := fun h => hAB h.symm
  have hlen : ("rust" : String).utf8ByteSize ≤ 32 := by decide
  have hA1 : lookupA s1.profiles A = some (freshProfile A n m ["rust"] now0) := by
    rw [hs1]
    exact if_pos rfl
  have hdecl : "rust" ∈ (freshProfile A n m ["rust"] now0).skills := List.Mem.head _
  intro now2
  have hend : endorse_skill s1 B A "rust" now2 = .ok (endorseState s1 B A "rust" now2) :=
    endorse_skill_succeeds hlen hBA hA1 hdecl hnoE hB
  have hpA2 : lookupA (endorseState s1 B A "rust" now2).profiles A =
      some (endorseTarget now2 (freshProfile A n m ["rust"] now0)) :=
    lookupA_endorseState_target s1 B A "rust" now2 _ hA1 hBA
  have hrec2 : lookupA (endorseState s1 B A "rust" now2).endorsements (B, A, "rust") =
      some { endorser := B, target := A, skill := "rust", timestamp := now2 } :=
    endorseState_lookup_endorsement s1 B A "rust" now2
  have hrev : revoke_endorsement (endorseState s1 B A "rust" now2) B A "rust" =
      .ok (revokeState (endorseState s1 B A "rust" now2) B A "rust") :=
    revoke_endorsement_succeeds hrec2 rfl hpA2
  have hpA3 : lookupA (revokeState (endorseState s1 B A "rust" now2) B A "rust").profiles A =
      some (revokeTarget (endorseTarget now2 (freshProfile A n m ["rust"] now0))) :=
    lookupA_revokeState_target _ B A "rust" _ hpA2
  have hnoe3 : lookupA (revokeState (endorseState s1 B A "rust" now2) B A
      "rust").endorsements (B, A, "rust") = none :=
    revokeState_lookup_none _ B A "rust"
  have hpB2 : lookupA (endorseState s1 B A "rust" now2).profiles B =
      some { pB with last_active := now2 } :=
    lookupA_endorseState_endorser s1 B A "rust" now2 pB hB hBA
  have hpB3 : lookupA (revokeState (endorseState s1 B A "rust" now2) B A "rust").profiles B =
      some { pB with last_active := now2 } := by
    rw [lookupA_revokeState_other _ B A "rust" B hAB]
    exact hpB2
  refine ⟨_, _, hend, ⟨_, hpA2, rfl, rfl⟩, hrev, ⟨_, hpA3, rfl, rfl⟩, hnoe3, ?_⟩
  intro now4
  exact ⟨_, endorse_skill_succeeds hlen hBA hpA3 (List.Mem.head _) hnoe3 hpB3⟩

/-- C6 witness: alice and bob in the initialized registry, with
concrete identities 1 and 2 and concrete timestamps. -/
theorem revoke_inverts_endorse_witness : endorseRevokeRoundTrip stateBA 1 2 :=
  revoke_inverts_endorse stateB stateBA 1 2 "alice" "uri" 5 bobProfile
    rfl (by decide) (by decide) (by decide)
